import Mathlib

/-!
Shallow embedding of the gRPC native instrumentation
(experimental/packages/opentelemetry-instrumentation-grpc/src/grpc/index.ts)
and verification of its specification.

The file models, from the source, the patch lifecycle of `init` and
`_getInternalPatchs`, the patched server `register` handler of
`_patchServer`, the patched client constructor of `_patchClient`,
`_getMethodsToWrap`, `_getPatchedClientMethods` and
`_createMetadataCapture`.  Helper functions that live in files of the
repository outside the given source (serverUtils.ts, utils.ts and the
wrap primitives of the instrumentation package) are modelled from the
specification; each such definition carries a doc comment saying so.
-/

namespace GrpcInstr

/-! ## Wrap / unwrap primitives and the patch lifecycle -/

/-- Modelled from the spec: the wrap, unwrap and isWrapped primitives of
the instrumentation package (InstrumentationBase._wrap, _unwrap and
isWrapped are not part of the given source files).  A patch target is a
function slot: either the original function reference, or an instrumented
delegate holding the function it wraps ("runtime substitution of a
function reference with an instrumented version that delegates to the
original"). -/
inductive FnSlot where
  | original : FnSlot
  | wrapped : FnSlot → FnSlot
deriving DecidableEq, Repr

/-- Modelled from the spec: isWrapped tests whether the slot currently
holds an instrumented delegate. -/
def isWrapped : FnSlot → Bool
  | .original => false
  | .wrapped _ => true

/-- Modelled from the spec: wrap substitutes the current function
reference with an instrumented delegate that holds it. -/
def wrapSlot (s : FnSlot) : FnSlot := .wrapped s

/-- Modelled from the spec: unwrap restores the function the delegate
holds; unwrapping a slot that is not wrapped is a no-op, never an
error. -/
def unwrapSlot : FnSlot → FnSlot
  | .original => .original
  | .wrapped inner => inner

/-- Number of instrumentation layers currently on the slot. -/
def layers : FnSlot → Nat
  | .original => 0
  | .wrapped inner => layers inner + 1

/-- Modelled from the spec: invoking a slot runs each instrumentation
layer exactly once, each delegating inward, until the original
implementation runs.  Counts how often the original implementation is
called for one invocation of the slot. -/
def originalCallsOnInvoke : FnSlot → Nat
  | .original => 1
  | .wrapped inner => originalCallsOnInvoke inner

/-- Modelled from the spec: each instrumentation layer creates exactly one
span per invocation before delegating.  Counts the spans created by one
invocation of the slot. -/
def spansOnInvoke : FnSlot → Nat
  | .original => 0
  | .wrapped inner => spansOnInvoke inner + 1

/-- The exports of the main grpc module, reduced to the two patch targets
touched by the load and unload callbacks of `init`. -/
structure GrpcModuleExports where
  register : FnSlot
  makeGenericClientConstructor : FnSlot
deriving DecidableEq, Repr

/-- The exports of an internal client module
(grpc/src/node/src/client.js or grpc/src/client.js), reduced to its one
patch target. -/
structure GrpcInternalClientTypes where
  makeClientConstructor : FnSlot
deriving DecidableEq, Repr

/-- The load callback of `init` (index.ts lines 79 to 101): on the server
registration method and on the externally exported client constructor
factory, unwrap if already wrapped, then wrap. -/
def initOnPatch (m : GrpcModuleExports) : GrpcModuleExports :=
  let r := if isWrapped m.register then unwrapSlot m.register else m.register
  let r := wrapSlot r
  let g := if isWrapped m.makeGenericClientConstructor then
             unwrapSlot m.makeGenericClientConstructor
           else m.makeGenericClientConstructor
  let g := wrapSlot g
  { register := r, makeGenericClientConstructor := g }

/-- The unload callback of `init` (index.ts lines 102 to 107): when the
module exports are present, unwrap the server registration method.  The
source unwraps nothing else here. -/
def initOnUnPatch (m : Option GrpcModuleExports) : Option GrpcModuleExports :=
  match m with
  | none => none
  | some m => some { m with register := unwrapSlot m.register }

/-- The internal load callback of `_getInternalPatchs` (index.ts lines
122 to 133): unwrap makeClientConstructor if wrapped, then wrap it. -/
def internalOnPatch (m : GrpcInternalClientTypes) : GrpcInternalClientTypes :=
  let c := if isWrapped m.makeClientConstructor then
             unwrapSlot m.makeClientConstructor
           else m.makeClientConstructor
  { makeClientConstructor := wrapSlot c }

/-- The internal unload callback of `_getInternalPatchs` (index.ts lines
134 to 141): when the module exports are present, unwrap
makeClientConstructor. -/
def internalOnUnPatch (m : Option GrpcInternalClientTypes) :
    Option GrpcInternalClientTypes :=
  match m with
  | none => none
  | some m => some { makeClientConstructor := unwrapSlot m.makeClientConstructor }

/-- A pristine main module: nothing wrapped yet. -/
def pristineModule : GrpcModuleExports :=
  { register := .original, makeGenericClientConstructor := .original }

/-- A pristine internal client module: nothing wrapped yet. -/
def pristineInternal : GrpcInternalClientTypes :=
  { makeClientConstructor := .original }

/-! ## String helpers -/

/-- Splits a character list at the last occurrence of the slash
character: returns the part before it and the part after it, or none when
no slash occurs. -/
def splitLastSlash : List Char → Option (List Char × List Char)
  | [] => none
  | x :: xs =>
    match splitLastSlash xs with
    | some (b, a) => some (x :: b, a)
    | none => if x = '/' then some ([], xs) else none

/-- Removes the first occurrence of a character, like the JavaScript
string replace with a one-character string pattern and an empty
replacement. -/
def removeFirstChar (c : Char) : List Char → List Char
  | [] => []
  | x :: xs => if x = c then xs else x :: removeFirstChar c xs

/-- JavaScript template piece used for span names: name.replace with the
slash pattern removes only the first slash. -/
def removeFirstSlash (s : String) : String :=
  String.mk (removeFirstChar '/' s.toList)

/-- Modelled from the spec: utils._extractMethodAndService (utils.ts is
not part of the given source files).  Policy of the spec: split on the
last slash; everything before it is the service (the leading slash
stripped, per the specification example mapping /pkg.Sub.Service/Method
to the service pkg.Sub.Service), the remainder is the method; an empty or
undefined input yields undefined for both fields and never fails.  The
spec does not constrain inputs without any slash; for those this model
returns an empty service and the whole input as method. -/
def _extractMethodAndService (path : Option String) :
    Option String × Option String :=
  match path with
  | none => (none, none)
  | some s =>
    if s.toList = [] then (none, none)
    else
      match splitLastSlash s.toList with
      | some (before, after) =>
        let service :=
          match before with
          | '/' :: rest => rest
          | _ => before
        (some (String.mk service), some (String.mk after))
      | none => (some "", some s)

/-! ## Configuration and the ignore-list filter -/

/-- Modelled from the spec: an ignore matcher of
GrpcInstrumentationConfig.ignoreGrpcMethods is either an exact string or
a regular expression; a regular expression is embedded as the abstract
predicate it decides on strings. -/
inductive IgnoreMatcher where
  | exact : String → IgnoreMatcher
  | pattern : (String → Bool) → IgnoreMatcher

/-- The metadata keys configured for one role, per direction
(GrpcInstrumentationConfig.metadataToSpanAttributes entries). -/
structure MetadataSideConfig where
  requestMetadata : Option (List String) := none
  responseMetadata : Option (List String) := none

/-- The nested metadataToSpanAttributes mapping of the configuration. -/
structure MetadataToSpanAttributes where
  client : Option MetadataSideConfig := none
  server : Option MetadataSideConfig := none

/-- GrpcInstrumentationConfig: the fields the core reads. -/
structure GrpcInstrumentationConfig where
  ignoreGrpcMethods : Option (List IgnoreMatcher) := none
  metadataToSpanAttributes : Option MetadataToSpanAttributes := none

/-- Modelled from the spec: utils._methodIsIgnored (utils.ts is not part
of the given source files).  A method is ignored if any matcher equals it
exactly or matches it as a pattern; with no configured matchers nothing
is ignored. -/
def _methodIsIgnored (methodName : String)
    (patterns : Option (List IgnoreMatcher)) : Bool :=
  match patterns with
  | none => false
  | some ps =>
    ps.any fun p =>
      match p with
      | .exact s => s = methodName
      | .pattern t => t methodName

/-- The unqualified segment of a registered method name: the part after
the last slash, or the whole name when there is no slash or the segment
is empty. -/
def unqualifiedName (name : String) : String :=
  match splitLastSlash name.toList with
  | some (_, after) => if after = [] then name else String.mk after
  | none => name

/-- Modelled from the spec: serverUtils.shouldNotTraceServerCall
(serverUtils.ts is not part of the given source files).  Consults the
ignore-list filter with the method name derived from registration, taken
unqualified. -/
def shouldNotTraceServerCall (cfg : GrpcInstrumentationConfig)
    (name : String) : Bool :=
  _methodIsIgnored (unqualifiedName name) cfg.ignoreGrpcMethods

/-! ## Metadata capture -/

/-- A metadata header value: a single string or an array of strings, kept
as the carrier gives it. -/
inductive MetaVal where
  | str : String → MetaVal
  | arr : List String → MetaVal
deriving DecidableEq, Repr

/-- A metadata carrier: key and value pairs. -/
abbrev Metadata := List (String × MetaVal)

/-- Lower-casing of a string, character by character. -/
def lowerString (s : String) : String :=
  String.mk (s.toList.map Char.toLower)

/-- Case-insensitive lookup in a metadata carrier, per metadata
semantics. -/
def lookupCI (key : String) (carrier : Metadata) : Option MetaVal :=
  (carrier.find? fun e => lowerString e.1 = lowerString key).map (·.2)

/-- The span attribute name convention for captured metadata: the key is
lower-cased. -/
def metadataAttrName (direction key : String) : String :=
  "rpc." ++ direction ++ ".metadata." ++ lowerString key

/-- An action a metadata capture function could perform on a span; the
start and end constructors exist so that their absence from a capture
trace is expressible. -/
inductive CaptureAction where
  | setAttribute : String → MetaVal → CaptureAction
  | startSpan : CaptureAction
  | endSpan : CaptureAction
deriving DecidableEq, Repr

/-- Modelled from the spec: utils.metadataCapture (utils.ts is not part
of the given source files).  Given a direction tag and the configured key
list, produces the capture function: for each configured key, look the
value up case-insensitively in the carrier; if present, set one span
attribute named by the convention with the value preserved; missing keys
are silently skipped.  The result is the ordered list of span actions the
capture performs. -/
def metadataCapture (direction : String) (keys : List String)
    (carrier : Metadata) : List CaptureAction :=
  keys.filterMap fun k =>
    (lookupCI k carrier).map fun v =>
      CaptureAction.setAttribute (metadataAttrName direction k) v

/-- The value an attribute name holds after a list of span actions ran:
the last setAttribute to that name wins, as span attributes are a keyed
map. -/
def finalAttr (acts : List CaptureAction) (name : String) : Option MetaVal :=
  match acts with
  | [] => none
  | a :: rest =>
    match finalAttr rest name with
    | some v => some v
    | none =>
      match a with
      | .setAttribute n v => if n = name then some v else none
      | _ => none

/-- The four precomputed capture closures of the instrumentation
(metadataCaptureType of internal-types.ts). -/
structure MetadataCaptureSideFns where
  captureRequestMetadata : Metadata → List CaptureAction
  captureResponseMetadata : Metadata → List CaptureAction

/-- Client and server sides of the capture closures. -/
structure MetadataCaptureType where
  client : MetadataCaptureSideFns
  server : MetadataCaptureSideFns

/-- The configured client request keys with the empty-list default of
_createMetadataCapture. -/
def clientRequestKeys (cfg : GrpcInstrumentationConfig) : List String :=
  ((cfg.metadataToSpanAttributes.bind (·.client)).bind
    (·.requestMetadata)).getD []

/-- The configured client response keys with the empty-list default of
_createMetadataCapture. -/
def clientResponseKeys (cfg : GrpcInstrumentationConfig) : List String :=
  ((cfg.metadataToSpanAttributes.bind (·.client)).bind
    (·.responseMetadata)).getD []

/-- The configured server request keys with the empty-list default of
_createMetadataCapture. -/
def serverRequestKeys (cfg : GrpcInstrumentationConfig) : List String :=
  ((cfg.metadataToSpanAttributes.bind (·.server)).bind
    (·.requestMetadata)).getD []

/-- The configured server response keys with the empty-list default of
_createMetadataCapture. -/
def serverResponseKeys (cfg : GrpcInstrumentationConfig) : List String :=
  ((cfg.metadataToSpanAttributes.bind (·.server)).bind
    (·.responseMetadata)).getD []

/-- Embedding of _createMetadataCapture (index.ts lines 377 to 402): the
four capture closures, each built from the configured key list for its
role and direction, defaulting to the empty list. -/
def _createMetadataCapture (cfg : GrpcInstrumentationConfig) :
    MetadataCaptureType :=
  { client :=
      { captureRequestMetadata :=
          metadataCapture "request" (clientRequestKeys cfg)
        captureResponseMetadata :=
          metadataCapture "response" (clientResponseKeys cfg) }
    server :=
      { captureRequestMetadata :=
          metadataCapture "request" (serverRequestKeys cfg)
        captureResponseMetadata :=
          metadataCapture "response" (serverResponseKeys cfg) } }

/-! ## The patched server handler -/

/-- Span kinds used by the instrumentation. -/
inductive SpanKind where
  | server : SpanKind
  | client : SpanKind
deriving DecidableEq, Repr

/-- One action of the patched server handler, in the order performed. -/
inductive ServerAction where
  | startSpan : String → SpanKind → ServerAction
  | setAttribute : String → Option String → ServerAction
  | captureRequestMetadata : List String → ServerAction
  | wrapSendMetadata : ServerAction
  | setStatusError : String → ServerAction
  | setStatusOk : ServerAction
  | endSpan : ServerAction
  | callOriginalHandler : Bool → ServerAction
  | invokeCallback : Option String → Nat → ServerAction
deriving DecidableEq, Repr

/-- The JavaScript value the patched server handler returns. -/
inductive HandlerReturn where
  | originalRegisterResult : HandlerReturn
  | originalFuncResult : Bool → HandlerReturn
  | jsUndefined : HandlerReturn
deriving DecidableEq, Repr

/-- Modelled from the spec: the callback wrapped by
serverUtils.clientStreamAndUnaryHandler (serverUtils.ts is not part of
the given source files).  On whichever (error, response) pair the
original handler supplies, the span status is set (an error gives an
error status carrying the message, success gives the ok status), the
span is ended, and only then is the original callback invoked with the
unmodified arguments. -/
def patchedCallback (err : Option String) (response : Nat) :
    List ServerAction :=
  (match err with
   | some m => [ServerAction.setStatusError m]
   | none => [ServerAction.setStatusOk])
  ++ [ServerAction.endSpan, ServerAction.invokeCallback err response]

/-- Modelled from the spec: serverUtils.clientStreamAndUnaryHandler — the
original handler is invoked with the call and the wrapped callback; the
trace is parametrized by the (error, response) pair the handler later
passes to that callback. -/
def clientStreamAndUnaryHandlerTrace (err : Option String)
    (response : Nat) : List ServerAction :=
  ServerAction.callOriginalHandler true :: patchedCallback err response

/-- Modelled from the spec: the dispatch of
serverUtils.serverStreamAndBidiHandler invokes the original handler with
the call only; stream completion is observed through the call's own
events, modelled separately below. -/
def serverStreamAndBidiDispatchTrace : List ServerAction :=
  [ServerAction.callOriginalHandler false]

/-- The attribute-setting actions of the server span (index.ts lines 217
to 224): the RPC system constant, then the method and service extracted
from the registered name. -/
def serverSpanAttributes (name : String) : List ServerAction :=
  let sm := _extractMethodAndService (some name)
  [ServerAction.setAttribute "rpc.system" (some "grpc"),
   ServerAction.setAttribute "rpc.method" sm.2,
   ServerAction.setAttribute "rpc.service" sm.1]

/-- Embedding of the function func returned by _patchServer (index.ts
lines 178 to 269): the ordered list of instrumentation actions it
performs for one incoming call and its JavaScript return value.  For the
unary shapes the trace is parametrized by the (error, response) pair the
original handler later passes to the wrapped callback.  On the traced
path the source has no return statement, so the handler returns
undefined there. -/
def patchedServerFunc (cfg : GrpcInstrumentationConfig) (name : String)
    (callType : String) (err : Option String) (response : Nat) :
    List ServerAction × HandlerReturn :=
  if shouldNotTraceServerCall cfg name then
    if callType = "unary" ∨ callType = "client_stream" then
      ([ServerAction.callOriginalHandler true], .originalFuncResult true)
    else if callType = "server_stream" ∨ callType = "bidi" then
      ([ServerAction.callOriginalHandler false], .originalFuncResult false)
    else ([], .originalRegisterResult)
  else
    let pre :=
      ServerAction.startSpan ("grpc." ++ removeFirstSlash name) .server ::
        serverSpanAttributes name
        ++ [ServerAction.captureRequestMetadata (serverRequestKeys cfg),
            ServerAction.wrapSendMetadata]
    if callType = "unary" ∨ callType = "client_stream" then
      (pre ++ clientStreamAndUnaryHandlerTrace err response, .jsUndefined)
    else if callType = "server_stream" ∨ callType = "bidi" then
      (pre ++ serverStreamAndBidiDispatchTrace, .jsUndefined)
    else (pre, .jsUndefined)

/-- Counts the startSpan actions of a server trace. -/
def countStartSpans (acts : List ServerAction) : Nat :=
  acts.countP fun a =>
    match a with
    | .startSpan _ _ => true
    | _ => false

/-- Counts the endSpan actions of a server trace. -/
def countEndSpans (acts : List ServerAction) : Nat :=
  acts.countP fun a =>
    match a with
    | .endSpan => true
    | _ => false

/-- Counts the invocations of the original callback in a server trace. -/
def countCallbackCalls (acts : List ServerAction) : Nat :=
  acts.countP fun a =>
    match a with
    | .invokeCallback _ _ => true
    | _ => false

/-- Counts the invocations of the original handler in a server trace. -/
def countHandlerCalls (acts : List ServerAction) : Nat :=
  acts.countP fun a =>
    match a with
    | .callOriginalHandler _ => true
    | _ => false

/-! ## Stream completion for server-stream and bidi calls -/

/-- An event emitted by a server-stream or bidi call object: a data
event, an error event carrying a message, or a status or finish event
carrying a status code. -/
inductive StreamEvent where
  | dataEvent : StreamEvent
  | errorEvent : String → StreamEvent
  | statusEvent : Nat → StreamEvent
deriving DecidableEq, Repr

/-- The status recorded on the span of a streaming call. -/
inductive StreamSpanStatus where
  | unset : StreamSpanStatus
  | errorStatus : String → StreamSpanStatus
  | codeStatus : Nat → StreamSpanStatus
deriving DecidableEq, Repr

/-- The span state of one streaming call: how many spans were created for
the call, whether the span has ended, and its recorded status. -/
structure StreamSpanState where
  spansCreated : Nat
  ended : Bool
  status : StreamSpanStatus
deriving DecidableEq, Repr

/-- Whether a stream event is terminal (an error, or a status or finish
event). -/
def isTerminal : StreamEvent → Bool
  | .dataEvent => false
  | .errorEvent _ => true
  | .statusEvent _ => true

/-- The span status a terminal event corresponds to. -/
def terminalStatus : StreamEvent → StreamSpanStatus
  | .dataEvent => .unset
  | .errorEvent m => .errorStatus m
  | .statusEvent c => .codeStatus c

/-- Modelled from the spec: the event handling of
serverUtils.serverStreamAndBidiHandler (serverUtils.ts is not part of the
given source files).  Data events trigger no span action; the first
terminal event — error, or status or finish — ends the span with the
corresponding status; once the span has ended, further terminal events
leave the span state unchanged.  No event ever creates a span. -/
def handleStreamEvent (st : StreamSpanState) (e : StreamEvent) :
    StreamSpanState :=
  match e with
  | .dataEvent => st
  | .errorEvent m =>
    if st.ended then st
    else { st with ended := true, status := .errorStatus m }
  | .statusEvent c =>
    if st.ended then st
    else { st with ended := true, status := .codeStatus c }

/-- Runs a sequence of stream events against a span state. -/
def runStreamEvents (st : StreamSpanState) (es : List StreamEvent) :
    StreamSpanState :=
  es.foldl handleStreamEvent st

/-- The span state right after the patched server handler dispatches a
server-stream or bidi call: the one SERVER span it started, not yet
ended, status unset. -/
def initialStreamSpanState : StreamSpanState :=
  { spansCreated := 1, ended := false, status := .unset }

/-! ## The wrapped sendMetadata operation -/

/-- A JavaScript value, as far as the return values of the modelled
operations need. -/
inductive JsValue where
  | undefined : JsValue
  | num : Int → JsValue
  | str : String → JsValue
deriving DecidableEq, Repr

/-- One action of the wrapped sendMetadata operation. -/
inductive SendMetadataAction where
  | captureResponseMetadata : List String → Metadata → SendMetadataAction
  | callOriginalSendMetadata : Metadata → SendMetadataAction
deriving DecidableEq, Repr

/-- Embedding of the sendMetadata wrapper installed by _patchServer
(index.ts lines 231 to 242): capture the response metadata with the
server response capture, then call the original sendMetadata on the call
with the same metadata.  The wrapper's arrow body has no return
statement, so the wrapped operation returns undefined whatever the
original returns; the original's return value is a parameter of the
embedding. -/
def wrappedSendMetadata (cfg : GrpcInstrumentationConfig)
    (originalReturn : Metadata → JsValue) (responseMetadata : Metadata) :
    List SendMetadataAction × JsValue :=
  let _ := originalReturn responseMetadata
  ([SendMetadataAction.captureResponseMetadata (serverResponseKeys cfg)
      responseMetadata,
    SendMetadataAction.callOriginalSendMetadata responseMetadata],
   JsValue.undefined)

/-- Counts the calls to the original sendMetadata in a wrapper trace. -/
def countSendMetadataCalls (acts : List SendMetadataAction) : Nat :=
  acts.countP fun a =>
    match a with
    | .callOriginalSendMetadata _ => true
    | _ => false

/-! ## The patched client constructor and client methods -/

/-- One action of a patched client method, in the order performed. -/
inductive ClientAction where
  | startSpan : String → SpanKind → ClientAction
  | setAttribute : String → Option String → ClientAction
  | setPeerName : String → ClientAction
  | setPeerPort : Nat → ClientAction
  | captureRequestMetadata : List String → ClientAction
  | remoteCall : List Nat → ClientAction
  | callOriginalDirect : List Nat → ClientAction
deriving DecidableEq, Repr

/-- Splits a character list on the colon character. -/
def splitOnColon : List Char → List (List Char)
  | [] => [[]]
  | c :: rest =>
    if c = ':' then [] :: splitOnColon rest
    else
      match splitOnColon rest with
      | [] => [[c]]
      | h :: t => (c :: h) :: t

/-- Parses a non-empty all-digit character list as a decimal number. -/
def charListToNat? (l : List Char) : Option Nat :=
  if l ≠ [] ∧ l.all Char.isDigit then
    some (l.foldl (fun acc c => acc * 10 + (c.toNat - 48)) 0)
  else none

/-- Modelled from the spec: the URI_REGEX peer-target parse of utils.ts
(not part of the given source files): extracts a peer name and numeric
port from a URI-like target such as dns:host:port or host:port; a failed
parse yields none and the peer attributes are omitted. -/
def parsePeerTarget (target : String) : Option (String × Nat) :=
  match splitOnColon target.toList with
  | [name, port] => (charListToNat? port).map fun p => (String.mk name, p)
  | [_scheme, name, port] =>
    (charListToNat? port).map fun p => (String.mk name, p)
  | _ => none

/-- Embedding of clientMethodTrace, the wrapped client method built by
_getPatchedClientMethods (index.ts lines 323 to 375): start a CLIENT span
named from the path carried on the original function (replacing the first
slash; an undefined path names the span grpc.undefined), set the three
core attributes, set peer attributes when the channel target parses,
capture request metadata with the client request capture, and delegate
the remote call with the call arguments inside the span's context.  No
ignore-list check occurs here. -/
def clientMethodTrace (cfg : GrpcInstrumentationConfig)
    (path : Option String) (args : List Nat) (target : String) :
    List ClientAction :=
  let spanName :=
    "grpc." ++ (match path with
                | some p => removeFirstSlash p
                | none => "undefined")
  let sm := _extractMethodAndService path
  [ClientAction.startSpan spanName .client,
   ClientAction.setAttribute "rpc.system" (some "grpc"),
   ClientAction.setAttribute "rpc.method" sm.2,
   ClientAction.setAttribute "rpc.service" sm.1]
  ++ (match parsePeerTarget target with
      | some (h, p) => [ClientAction.setPeerName h, ClientAction.setPeerPort p]
      | none => [])
  ++ [ClientAction.captureRequestMetadata (clientRequestKeys cfg),
      ClientAction.remoteCall args]

/-- One entry of the method-descriptor map handed to the client
constructor: the camel-case name and the optional original proto name. -/
structure MethodDefinition where
  name : String
  originalName : Option String
deriving DecidableEq, Repr

/-- Embedding of _getMethodsToWrap (index.ts lines 299 to 321): for each
descriptor entry whose name the configured ignore list does not match,
push the name, and also the original name when it is present, distinct
from the name and an own property of the client prototype. -/
def _getMethodsToWrap (cfg : GrpcInstrumentationConfig)
    (protoHasOwnProperty : String → Bool)
    (methods : List MethodDefinition) : List String :=
  (methods.map fun m =>
    if _methodIsIgnored m.name cfg.ignoreGrpcMethods then []
    else
      m.name ::
        (match m.originalName with
         | some o =>
           if protoHasOwnProperty o ∧ m.name ≠ o then [o] else []
         | none => [])).flatten

/-- A client produced by the patched constructor: the method names that
were wrapped at generation time. -/
structure GeneratedClient where
  wrappedMethods : List String
deriving DecidableEq, Repr

/-- Embedding of the patched makeClientConstructor of _patchClient
(index.ts lines 278 to 297): the generated client has every method of
_getMethodsToWrap, computed against the configuration current at
generation time, wrapped with clientMethodTrace. -/
def patchedMakeClientConstructor (cfg : GrpcInstrumentationConfig)
    (protoHasOwnProperty : String → Bool)
    (methods : List MethodDefinition) : GeneratedClient :=
  { wrappedMethods := _getMethodsToWrap cfg protoHasOwnProperty methods }

/-- Invoking a method on a generated client under the configuration
current at invocation time: a wrapped method runs clientMethodTrace, an
unwrapped one calls the original directly. -/
def invokeClientMethod (client : GeneratedClient)
    (cfg : GrpcInstrumentationConfig) (methodName : String)
    (path : Option String) (args : List Nat) (target : String) :
    List ClientAction :=
  if methodName ∈ client.wrappedMethods then
    clientMethodTrace cfg path args target
  else [ClientAction.callOriginalDirect args]

/-- Counts the startSpan actions of a client trace. -/
def countClientStartSpans (acts : List ClientAction) : Nat :=
  acts.countP fun a =>
    match a with
    | .startSpan _ _ => true
    | _ => false

/-- A configuration with nothing set, as when the instrumentation is
constructed without options. -/
def emptyConfig : GrpcInstrumentationConfig := {}

/-- A configuration whose ignore list matches exactly the method name
foo. -/
def ignoreFooConfig : GrpcInstrumentationConfig :=
  { ignoreGrpcMethods := some [IgnoreMatcher.exact "foo"] }

/-- A client generated under the empty configuration from a descriptor
map holding the single method foo. -/
def fooClient : GeneratedClient :=
  patchedMakeClientConstructor emptyConfig (fun _ => false)
    [{ name := "foo", originalName := none }]

/-! ## Helper lemmas -/

theorem initOnPatch_idempotent (m : GrpcModuleExports) :
    initOnPatch (initOnPatch m) = initOnPatch m := by
  cases m with
  | mk r g => cases r <;> cases g <;> rfl

theorem internalOnPatch_idempotent (i : GrpcInternalClientTypes) :
    internalOnPatch (internalOnPatch i) = internalOnPatch i := by
  cases i with
  | mk c => cases c <;> rfl

theorem handleStreamEvent_spansCreated (st : StreamSpanState)
    (e : StreamEvent) :
    (handleStreamEvent st e).spansCreated = st.spansCreated := by
  cases e with
  | dataEvent => rfl
  | errorEvent m => by_cases h : st.ended <;> simp [handleStreamEvent, h]
  | statusEvent c => by_cases h : st.ended <;> simp [handleStreamEvent, h]

theorem runStreamEvents_spansCreated (es : List StreamEvent)
    (st : StreamSpanState) :
    (runStreamEvents st es).spansCreated = st.spansCreated := by
  induction es generalizing st with
  | nil => rfl
  | cons e rest ih =>
    simp only [runStreamEvents, List.foldl_cons] at *
    rw [ih, handleStreamEvent_spansCreated]

theorem handleStreamEvent_of_ended (st : StreamSpanState) (e : StreamEvent)
    (h : st.ended = true) : handleStreamEvent st e = st := by
  cases e <;> simp [handleStreamEvent, h]

theorem runStreamEvents_of_ended (es : List StreamEvent)
    (st : StreamSpanState) (h : st.ended = true) :
    runStreamEvents st es = st := by
  induction es with
  | nil => rfl
  | cons e rest ih =>
    simp only [runStreamEvents, List.foldl_cons] at *
    rw [handleStreamEvent_of_ended st e h, ih]

theorem runStreamEvents_nonterminal (es : List StreamEvent)
    (st : StreamSpanState) (h : ∀ e ∈ es, isTerminal e = false) :
    runStreamEvents st es = st := by
  induction es with
  | nil => rfl
  | cons e rest ih =>
    have he : isTerminal e = false := h e (List.mem_cons_self e rest)
    have hrest : ∀ x ∈ rest, isTerminal x = false := fun x hx =>
      h x (List.mem_cons_of_mem e hx)
    cases e with
    | dataEvent =>
      simp only [runStreamEvents, List.foldl_cons] at *
      exact ih hrest
    | errorEvent m => simp [isTerminal] at he
    | statusEvent c => simp [isTerminal] at he

theorem handleStreamEvent_terminal (st : StreamSpanState) (t : StreamEvent)
    (hend : st.ended = false) (ht : isTerminal t = true) :
    handleStreamEvent st t =
      { st with ended := true, status := terminalStatus t } := by
  cases t with
  | dataEvent => simp [isTerminal] at ht
  | errorEvent m => simp [handleStreamEvent, terminalStatus, hend]
  | statusEvent c => simp [handleStreamEvent, terminalStatus, hend]

theorem mem_metadataCapture {direction : String} {keys : List String}
    {carrier : Metadata} {a : CaptureAction} :
    a ∈ metadataCapture direction keys carrier ↔
      ∃ k ∈ keys, ∃ v, lookupCI k carrier = some v ∧
        a = CaptureAction.setAttribute (metadataAttrName direction k) v := by
  simp only [metadataCapture, List.mem_filterMap, Option.map_eq_some']
  constructor
  · rintro ⟨k, hk, v, hv, rfl⟩
    exact ⟨k, hk, v, hv, rfl⟩
  · rintro ⟨k, hk, v, hv, rfl⟩
    exact ⟨k, hk, v, hv, rfl⟩

theorem finalAttr_cons_some {a : CaptureAction} {rest : List CaptureAction}
    {name : String} {w : MetaVal} (hr : finalAttr rest name = some w) :
    finalAttr (a :: rest) name = some w := by
  simp [finalAttr, hr]

theorem finalAttr_cons_none {a : CaptureAction} {rest : List CaptureAction}
    {name : String} (hr : finalAttr rest name = none) :
    finalAttr (a :: rest) name =
      (match a with
       | .setAttribute n v => if n = name then some v else none
       | _ => none) := by
  simp [finalAttr, hr]

theorem finalAttr_some_mem {acts : List CaptureAction} {name : String}
    {v : MetaVal} (h : finalAttr acts name = some v) :
    CaptureAction.setAttribute name v ∈ acts := by
  induction acts with
  | nil => simp [finalAttr] at h
  | cons a rest ih =>
    cases hr : finalAttr rest name with
    | some w =>
      rw [finalAttr_cons_some hr] at h
      cases h
      exact List.mem_cons_of_mem a (ih hr)
    | none =>
      rw [finalAttr_cons_none hr] at h
      cases a with
      | setAttribute n w =>
        have h' : (if n = name then some w else none) = some v := h
        by_cases hn : n = name
        · rw [if_pos hn] at h'
          cases h'
          rw [hn]
          exact List.mem_cons_self _ _
        · rw [if_neg hn] at h'
          exact Option.noConfusion h'
      | startSpan =>
        exact Option.noConfusion (show (none : Option MetaVal) = some v from h)
      | endSpan =>
        exact Option.noConfusion (show (none : Option MetaVal) = some v from h)

theorem finalAttr_isSome_of_mem {acts : List CaptureAction} {name : String}
    {v : MetaVal} (h : CaptureAction.setAttribute name v ∈ acts) :
    (finalAttr acts name).isSome := by
  induction acts with
  | nil => simp at h
  | cons a rest ih =>
    cases hr : finalAttr rest name with
    | some w =>
      rw [finalAttr_cons_some hr]
      rfl
    | none =>
      rw [finalAttr_cons_none hr]
      rcases List.mem_cons.mp h with h' | h'
      · rw [← h']
        simp
      · have := ih h'
        rw [hr] at this
        simp at this

theorem finalAttr_eq_none {acts : List CaptureAction} {name : String}
    (h : ∀ v : MetaVal, CaptureAction.setAttribute name v ∉ acts) :
    finalAttr acts name = none := by
  cases hf : finalAttr acts name with
  | none => rfl
  | some v => exact absurd (finalAttr_some_mem hf) (h v)

theorem finalAttr_eq_some_of {acts : List CaptureAction} {name : String}
    {v : MetaVal} (hmem : CaptureAction.setAttribute name v ∈ acts)
    (huniq : ∀ w : MetaVal, CaptureAction.setAttribute name w ∈ acts → w = v) :
    finalAttr acts name = some v := by
  cases hf : finalAttr acts name with
  | none =>
    have := finalAttr_isSome_of_mem hmem
    rw [hf] at this
    simp at this
  | some w =>
    have hw := huniq w (finalAttr_some_mem hf)
    rw [hw]

theorem metadataAttrName_inj (direction a b : String)
    (h : metadataAttrName direction b = metadataAttrName direction a) :
    lowerString b = lowerString a := by
  unfold metadataAttrName at h
  have hd := congrArg String.data h
  simp only [String.data_append, List.append_assoc] at hd
  exact String.ext
    (List.append_cancel_left (List.append_cancel_left
      (List.append_cancel_left hd)))

theorem lookupCI_congr {k k' : String} (carrier : Metadata)
    (h : lowerString k' = lowerString k) :
    lookupCI k' carrier = lookupCI k carrier := by
  simp only [lookupCI, h]

theorem splitLastSlash_of_not_mem {l : List Char} (h : '/' ∉ l) :
    splitLastSlash l = none := by
  induction l with
  | nil => rfl
  | cons x xs ih =>
    have hx : x ≠ '/' := fun hx => h (hx ▸ List.mem_cons_self x xs)
    have hxs : '/' ∉ xs := fun hm => h (List.mem_cons_of_mem x hm)
    rw [splitLastSlash, ih hxs]
    simp [hx]

theorem splitLastSlash_append {m : List Char} (pre : List Char)
    (h : '/' ∉ m) : splitLastSlash (pre ++ '/' :: m) = some (pre, m) := by
  induction pre with
  | nil =>
    rw [List.nil_append, splitLastSlash, splitLastSlash_of_not_mem h]
    simp
  | cons x xs ih =>
    rw [List.cons_append, splitLastSlash, ih]

theorem notMem_getMethodsToWrap {cfg : GrpcInstrumentationConfig}
    {protoHasOwnProperty : String → Bool} {methods : List MethodDefinition}
    {nm : String} (hig : _methodIsIgnored nm cfg.ignoreGrpcMethods = true)
    (hno : ∀ m ∈ methods, m.originalName ≠ some nm) :
    nm ∉ _getMethodsToWrap cfg protoHasOwnProperty methods := by
  intro hmem
  rw [_getMethodsToWrap, List.mem_flatten] at hmem
  obtain ⟨l, hl, hnl⟩ := hmem
  rw [List.mem_map] at hl
  obtain ⟨m, hm, rfl⟩ := hl
  by_cases hi : _methodIsIgnored m.name cfg.ignoreGrpcMethods
  · rw [if_pos hi] at hnl
    exact absurd hnl (List.not_mem_nil nm)
  · rw [if_neg hi] at hnl
    rcases List.mem_cons.mp hnl with h1 | h1
    · rw [← h1] at hi
      exact hi hig
    · cases ho : m.originalName with
      | none =>
        rw [ho] at h1
        exact absurd h1 (List.not_mem_nil nm)
      | some o =>
        rw [ho] at h1
        have h1' : nm ∈ (if protoHasOwnProperty o = true ∧ m.name ≠ o
            then [o] else []) := h1
        by_cases hc : protoHasOwnProperty o = true ∧ m.name ≠ o
        · rw [if_pos hc] at h1'
          rcases List.mem_cons.mp h1' with h2 | h2
          · exact hno m hm (by rw [ho, h2])
          · exact absurd h2 (List.not_mem_nil nm)
        · rw [if_neg hc] at h1'
          exact absurd h1' (List.not_mem_nil nm)

theorem countClientStartSpans_clientMethodTrace
    (cfg : GrpcInstrumentationConfig) (path : Option String)
    (args : List Nat) (target : String) :
    countClientStartSpans (clientMethodTrace cfg path args target) = 1 := by
  cases hp : parsePeerTarget target with
  | none =>
    simp [clientMethodTrace, countClientStartSpans, hp, List.countP_append,
      List.countP_cons]
  | some pr =>
    obtain ⟨h, p⟩ := pr
    simp [clientMethodTrace, countClientStartSpans, hp, List.countP_append,
      List.countP_cons]

/-! ## Claim theorems -/

/-- C1: applying the patch to the same module exports twice in succession
(two load events) leaves exactly one layer of wrapping on each target —
the server registration method, makeGenericClientConstructor and the
internal makeClientConstructor — because the load callbacks always unwrap
an already-wrapped target before wrapping; consequently one invocation of
a wrapped target calls the original implementation exactly once and
creates exactly one span. -/
theorem C1_apply_idempotent_single_layer :
    (∀ m : GrpcModuleExports, initOnPatch (initOnPatch m) = initOnPatch m)
    ∧ (∀ i : GrpcInternalClientTypes,
        internalOnPatch (internalOnPatch i) = internalOnPatch i)
    ∧ (layers (initOnPatch (initOnPatch pristineModule)).register = 1
       ∧ layers (initOnPatch (initOnPatch pristineModule)).makeGenericClientConstructor = 1
       ∧ layers (internalOnPatch (internalOnPatch pristineInternal)).makeClientConstructor = 1)
    ∧ (originalCallsOnInvoke (initOnPatch (initOnPatch pristineModule)).register = 1
       ∧ spansOnInvoke (initOnPatch (initOnPatch pristineModule)).register = 1
       ∧ originalCallsOnInvoke (initOnPatch (initOnPatch pristineModule)).makeGenericClientConstructor = 1
       ∧ spansOnInvoke (initOnPatch (initOnPatch pristineModule)).makeGenericClientConstructor = 1
       ∧ originalCallsOnInvoke (internalOnPatch (internalOnPatch pristineInternal)).makeClientConstructor = 1
       ∧ spansOnInvoke (internalOnPatch (internalOnPatch pristineInternal)).makeClientConstructor = 1) :=
  ⟨initOnPatch_idempotent, internalOnPatch_idempotent,
   ⟨rfl, rfl, rfl⟩, ⟨rfl, rfl, rfl, rfl, rfl, rfl⟩⟩

/-- C2, evaluation of the code at the failing input: after the load
callback wraps a pristine main module, the unload callback unwraps only
the server registration method and leaves makeGenericClientConstructor
wrapped, while the internal unload callback does unwrap
makeClientConstructor.  This contradicts the claim that removal unwraps
every target apply wrapped. -/
theorem C2_unload_leaves_client_factory_wrapped :
    initOnUnPatch (some (initOnPatch pristineModule)) =
      some { register := FnSlot.original,
             makeGenericClientConstructor := FnSlot.wrapped FnSlot.original }
    ∧ isWrapped (FnSlot.wrapped FnSlot.original) = true
    ∧ internalOnUnPatch (some (internalOnPatch pristineInternal)) =
        some pristineInternal
    ∧ initOnUnPatch none = none :=
  ⟨rfl, rfl, rfl, rfl⟩

/-- C3: for a server-stream or bidi call the patched handler starts
exactly one span before dispatching; data events create no additional
spans and no event ever creates one; the first terminal event — error, or
status or finish — ends the span with the status corresponding to that
event, and every subsequent event leaves the whole span state, ended flag
and status included, unchanged. -/
theorem C3_stream_span_lifecycle
    (cfg : GrpcInstrumentationConfig) (name callType : String)
    (err : Option String) (response : Nat)
    (es1 es2 : List StreamEvent) (t : StreamEvent)
    (hnotrace : shouldNotTraceServerCall cfg name = false)
    (htype : callType = "server_stream" ∨ callType = "bidi")
    (hpre : ∀ e ∈ es1, isTerminal e = false)
    (hterm : isTerminal t = true) :
    countStartSpans (patchedServerFunc cfg name callType err response).1 = 1
    ∧ (∀ es : List StreamEvent,
        (runStreamEvents initialStreamSpanState es).spansCreated = 1)
    ∧ runStreamEvents initialStreamSpanState (es1 ++ t :: es2) =
        { spansCreated := 1, ended := true, status := terminalStatus t }
    ∧ runStreamEvents initialStreamSpanState (es1 ++ t :: es2) =
        runStreamEvents initialStreamSpanState (es1 ++ [t]) := by
  have hrun : ∀ es2' : List StreamEvent,
      runStreamEvents initialStreamSpanState (es1 ++ t :: es2') =
        { spansCreated := 1, ended := true, status := terminalStatus t } := by
    intro es2'
    have h1 : runStreamEvents initialStreamSpanState es1 =
        initialStreamSpanState := runStreamEvents_nonterminal es1 _ hpre
    calc runStreamEvents initialStreamSpanState (es1 ++ t :: es2')
        = runStreamEvents
            (handleStreamEvent (runStreamEvents initialStreamSpanState es1) t)
            es2' := by
          simp [runStreamEvents, List.foldl_append]
      _ = runStreamEvents
            { spansCreated := 1, ended := true, status := terminalStatus t }
            es2' := by
          rw [h1, handleStreamEvent_terminal initialStreamSpanState t rfl hterm]
          rfl
      _ = { spansCreated := 1, ended := true, status := terminalStatus t } :=
          runStreamEvents_of_ended es2' _ rfl
  refine ⟨?_, ?_, hrun es2, (hrun es2).trans (hrun []).symm⟩
  · rcases htype with h | h <;>
      simp [patchedServerFunc, hnotrace, h, countStartSpans,
        serverStreamAndBidiDispatchTrace, serverSpanAttributes,
        List.countP_append, List.countP_cons]
  · intro es
    rw [runStreamEvents_spansCreated]
    rfl

/-- C3 witness: a bidi call under the empty configuration, whose event
stream is a data event, then a terminal error, then further terminal
events; the span is created once, ends on the error with the error
status, and the later events change nothing. -/
theorem C3_witness :
    countStartSpans
      (patchedServerFunc emptyConfig "/S/m" "bidi" none 0).1 = 1
    ∧ runStreamEvents initialStreamSpanState
        ([StreamEvent.dataEvent] ++ StreamEvent.errorEvent "boom" ::
          [StreamEvent.statusEvent 0, StreamEvent.errorEvent "late"]) =
        { spansCreated := 1, ended := true,
          status := StreamSpanStatus.errorStatus "boom" } := by
  have h := C3_stream_span_lifecycle emptyConfig "/S/m" "bidi" none 0
    [StreamEvent.dataEvent]
    [StreamEvent.statusEvent 0, StreamEvent.errorEvent "late"]
    (StreamEvent.errorEvent "boom")
    (by decide) (Or.inr rfl) (by decide) (by decide)
  exact ⟨h.1, h.2.2.1⟩

/-- C4: for a unary or client-stream server call that is not ignored and
whose handler completes with an error, the patched handler creates
exactly one span, ends it exactly once, and the trace finishes with the
error status carrying the error message, the span end, and only then the
single invocation of the original callback with the unmodified
(error, response) pair — the error re-surfaced unchanged. -/
theorem C4_unary_error_before_callback
    (cfg : GrpcInstrumentationConfig) (name callType : String)
    (msg : String) (response : Nat)
    (hnotrace : shouldNotTraceServerCall cfg name = false)
    (htype : callType = "unary" ∨ callType = "client_stream") :
    countStartSpans (patchedServerFunc cfg name callType (some msg) response).1 = 1
    ∧ countEndSpans (patchedServerFunc cfg name callType (some msg) response).1 = 1
    ∧ countCallbackCalls (patchedServerFunc cfg name callType (some msg) response).1 = 1
    ∧ ∃ pre, (patchedServerFunc cfg name callType (some msg) response).1 =
        pre ++ [ServerAction.setStatusError msg, ServerAction.endSpan,
                ServerAction.invokeCallback (some msg) response] := by
  have htr : (patchedServerFunc cfg name callType (some msg) response).1 =
      (ServerAction.startSpan ("grpc." ++ removeFirstSlash name) .server ::
        serverSpanAttributes name
        ++ [ServerAction.captureRequestMetadata (serverRequestKeys cfg),
            ServerAction.wrapSendMetadata,
            ServerAction.callOriginalHandler true])
      ++ [ServerAction.setStatusError msg, ServerAction.endSpan,
          ServerAction.invokeCallback (some msg) response] := by
    rcases htype with h | h <;>
      simp [patchedServerFunc, hnotrace, h, clientStreamAndUnaryHandlerTrace,
        patchedCallback]
  rw [htr]
  refine ⟨?_, ?_, ?_, ⟨_, rfl⟩⟩ <;>
    simp [countStartSpans, countEndSpans, countCallbackCalls,
      serverSpanAttributes, List.countP_append, List.countP_cons]

/-- C4 witness: a concrete unary call under the empty configuration whose
handler fails with the message boom; the theorem applies and its suffix
shape is checked on the concrete trace. -/
theorem C4_witness :
    countStartSpans
      (patchedServerFunc emptyConfig "/S/m" "unary" (some "boom") 7).1 = 1
    ∧ countEndSpans
        (patchedServerFunc emptyConfig "/S/m" "unary" (some "boom") 7).1 = 1
    ∧ countCallbackCalls
        (patchedServerFunc emptyConfig "/S/m" "unary" (some "boom") 7).1 = 1
    ∧ ∃ pre, (patchedServerFunc emptyConfig "/S/m" "unary" (some "boom") 7).1 =
        pre ++ [ServerAction.setStatusError "boom", ServerAction.endSpan,
                ServerAction.invokeCallback (some "boom") 7] :=
  C4_unary_error_before_callback emptyConfig "/S/m" "unary" "boom" 7
    (by decide) (Or.inl rfl)

/-- C5 counterexample: the method foo matches the active ignore pattern,
yet invoking the patched client method still creates one span — the
wrapped client method performs no per-invocation ignore-list check.  (The
client fooClient was generated while nothing was ignored, so foo is
wrapped; the configuration active at invocation time ignores foo.) -/
theorem C5_counterexample :
    _methodIsIgnored "foo" ignoreFooConfig.ignoreGrpcMethods = true
    ∧ fooClient.wrappedMethods = ["foo"]
    ∧ countClientStartSpans
        (invokeClientMethod fooClient ignoreFooConfig "foo"
          (some "/S/foo") [] "dns:h:1") = 1 := by
  refine ⟨by decide, by decide, ?_⟩
  decide

/-- C5 amended: on the server the ignore check does happen on each
invocation — an ignored call of any known shape runs the original handler
with the original call signature for its shape (call and callback for
unary and client_stream, call alone for server_stream and bidi), performs
no tracing action and passes the original return value through.  On the
client the ignore check happens once, at constructor-generation time
inside _getMethodsToWrap: a method name ignored then (and not exposed as
another entry's originalName) is left unwrapped, so invoking it calls the
original directly with the original arguments and creates no span; the
per-invocation wrapped method consults no ignore list — its trace is
unchanged under any ignoreGrpcMethods setting. -/
theorem C5_ignore_semantics
    (cfg : GrpcInstrumentationConfig) (name callType : String)
    (err : Option String) (response : Nat)
    (protoHasOwnProperty : String → Bool) (methods : List MethodDefinition)
    (nm : String) (client : GeneratedClient) (path : Option String)
    (args : List Nat) (target : String)
    (ign : Option (List IgnoreMatcher))
    (hig : shouldNotTraceServerCall cfg name = true)
    (hnmig : _methodIsIgnored nm cfg.ignoreGrpcMethods = true)
    (hnoalias : ∀ m ∈ methods, m.originalName ≠ some nm)
    (hunwrapped : nm ∉ client.wrappedMethods) :
    ((callType = "unary" ∨ callType = "client_stream") →
      patchedServerFunc cfg name callType err response =
        ([ServerAction.callOriginalHandler true],
         HandlerReturn.originalFuncResult true))
    ∧ ((callType = "server_stream" ∨ callType = "bidi") →
      patchedServerFunc cfg name callType err response =
        ([ServerAction.callOriginalHandler false],
         HandlerReturn.originalFuncResult false))
    ∧ nm ∉ _getMethodsToWrap cfg protoHasOwnProperty methods
    ∧ invokeClientMethod client cfg nm path args target =
        [ClientAction.callOriginalDirect args]
    ∧ countClientStartSpans (invokeClientMethod client cfg nm path args target) = 0
    ∧ clientMethodTrace { cfg with ignoreGrpcMethods := ign } path args target =
        clientMethodTrace cfg path args target := by
  refine ⟨?_, ?_, notMem_getMethodsToWrap hnmig hnoalias, ?_, ?_, rfl⟩
  · intro hunary
    rcases hunary with h | h <;> simp [patchedServerFunc, hig, h]
  · intro hstream
    rcases hstream with h | h <;> simp [patchedServerFunc, hig, h]
  · simp [invokeClientMethod, hunwrapped]
  · simp [invokeClientMethod, hunwrapped, countClientStartSpans]

/-- C5 witness: the configuration ignoring foo, a server call named foo
invoked once with the unary type and once with the bidi type — each runs
the original handler untraced with its shape's signature — and a client
whose descriptor map holds only foo: foo is not wrapped, invoking it
calls straight through with no span. -/
theorem C5_witness :
    patchedServerFunc ignoreFooConfig "foo" "unary" (some "e") 1 =
      ([ServerAction.callOriginalHandler true],
       HandlerReturn.originalFuncResult true)
    ∧ patchedServerFunc ignoreFooConfig "foo" "bidi" none 0 =
      ([ServerAction.callOriginalHandler false],
       HandlerReturn.originalFuncResult false)
    ∧ "foo" ∉ _getMethodsToWrap ignoreFooConfig (fun _ => false)
        [{ name := "foo", originalName := none }]
    ∧ invokeClientMethod { wrappedMethods := [] } ignoreFooConfig "foo"
        (some "/S/foo") [2] "dns:h:1" =
        [ClientAction.callOriginalDirect [2]]
    ∧ countClientStartSpans
        (invokeClientMethod { wrappedMethods := [] } ignoreFooConfig "foo"
          (some "/S/foo") [2] "dns:h:1") = 0
    ∧ clientMethodTrace
        { ignoreFooConfig with ignoreGrpcMethods := none }
        (some "/S/foo") [2] "dns:h:1" =
        clientMethodTrace ignoreFooConfig (some "/S/foo") [2] "dns:h:1" :=
  have h1 := C5_ignore_semantics ignoreFooConfig "foo" "unary" (some "e") 1
    (fun _ => false) [{ name := "foo", originalName := none }] "foo"
    { wrappedMethods := [] } (some "/S/foo") [2] "dns:h:1" none
    (by decide) (by decide) (by decide) (by decide)
  have h2 := C5_ignore_semantics ignoreFooConfig "foo" "bidi" none 0
    (fun _ => false) [{ name := "foo", originalName := none }] "foo"
    { wrappedMethods := [] } (some "/S/foo") [2] "dns:h:1" none
    (by decide) (by decide) (by decide) (by decide)
  ⟨h1.1 (Or.inl rfl), h2.2.1 (Or.inr rfl), h1.2.2.1, h1.2.2.2.1,
   h1.2.2.2.2.1, h1.2.2.2.2.2⟩

/-- C6 counterexample: a server call registered with the unknown type
weird, not ignored, on which the wrapped handler does start a span (so a
tracing action is performed) and returns undefined rather than the
original registration result — refuting the claim for non-ignored calls
of unknown type. -/
theorem C6_counterexample :
    countStartSpans (patchedServerFunc emptyConfig "/S/m" "weird" none 0).1 = 1
    ∧ (patchedServerFunc emptyConfig "/S/m" "weird" none 0).2 =
        HandlerReturn.jsUndefined
    ∧ (patchedServerFunc emptyConfig "/S/m" "weird" none 0).2 ≠
        HandlerReturn.originalRegisterResult := by
  refine ⟨?_, by decide, by decide⟩
  decide

/-- C6 amended: for a server call of unknown type, the ignored path takes
no tracing action and returns the original registration result; the
non-ignored path starts one span (setting attributes, capturing request
metadata and wrapping sendMetadata) but never invokes the original
handler, never ends the span, and returns undefined. -/
theorem C6_unknown_call_type
    (cfg : GrpcInstrumentationConfig) (name callType : String)
    (err : Option String) (response : Nat)
    (h1 : callType ≠ "unary") (h2 : callType ≠ "client_stream")
    (h3 : callType ≠ "server_stream") (h4 : callType ≠ "bidi") :
    (shouldNotTraceServerCall cfg name = true →
      patchedServerFunc cfg name callType err response =
        ([], HandlerReturn.originalRegisterResult))
    ∧ (shouldNotTraceServerCall cfg name = false →
      countStartSpans (patchedServerFunc cfg name callType err response).1 = 1
      ∧ countHandlerCalls (patchedServerFunc cfg name callType err response).1 = 0
      ∧ countEndSpans (patchedServerFunc cfg name callType err response).1 = 0
      ∧ (patchedServerFunc cfg name callType err response).2 =
          HandlerReturn.jsUndefined) := by
  constructor
  · intro hig
    simp [patchedServerFunc, hig, h1, h2, h3, h4]
  · intro hig
    refine ⟨?_, ?_, ?_, ?_⟩ <;>
      simp [patchedServerFunc, hig, h1, h2, h3, h4, countStartSpans,
        countHandlerCalls, countEndSpans, serverSpanAttributes,
        List.countP_append, List.countP_cons]

/-- C6 witness: the unknown type weird, once with a call whose name the
configuration ignores (original result passed through, nothing traced)
and once with a call that is not ignored (one span started, handler never
invoked, span never ended, undefined returned). -/
theorem C6_witness :
    patchedServerFunc ignoreFooConfig "foo" "weird" none 0 =
      ([], HandlerReturn.originalRegisterResult)
    ∧ (countStartSpans (patchedServerFunc emptyConfig "/S/m" "weird" none 0).1 = 1
      ∧ countHandlerCalls (patchedServerFunc emptyConfig "/S/m" "weird" none 0).1 = 0
      ∧ countEndSpans (patchedServerFunc emptyConfig "/S/m" "weird" none 0).1 = 0
      ∧ (patchedServerFunc emptyConfig "/S/m" "weird" none 0).2 =
          HandlerReturn.jsUndefined) :=
  ⟨(C6_unknown_call_type ignoreFooConfig "foo" "weird" none 0
      (by decide) (by decide) (by decide) (by decide)).1 (by decide),
   (C6_unknown_call_type emptyConfig "/S/m" "weird" none 0
      (by decide) (by decide) (by decide) (by decide)).2 (by decide)⟩

/-- C7: the wrapped sendMetadata captures response metadata on the span
and then calls the original sendMetadata exactly once with the very same
metadata argument; the capture precedes the delegation; and since the
original sendMetadata returns undefined (its contract is void), the
wrapped call returns the original's return value unchanged. -/
theorem C7_sendMetadata_wrap
    (cfg : GrpcInstrumentationConfig) (originalReturn : Metadata → JsValue)
    (responseMetadata : Metadata)
    (hvoid : originalReturn responseMetadata = JsValue.undefined) :
    countSendMetadataCalls
      (wrappedSendMetadata cfg originalReturn responseMetadata).1 = 1
    ∧ (∀ md, SendMetadataAction.callOriginalSendMetadata md ∈
        (wrappedSendMetadata cfg originalReturn responseMetadata).1 →
        md = responseMetadata)
    ∧ (∃ pre suf,
        (wrappedSendMetadata cfg originalReturn responseMetadata).1 =
          pre ++ SendMetadataAction.callOriginalSendMetadata responseMetadata :: suf
        ∧ SendMetadataAction.captureResponseMetadata (serverResponseKeys cfg)
            responseMetadata ∈ pre)
    ∧ (wrappedSendMetadata cfg originalReturn responseMetadata).2 =
        originalReturn responseMetadata := by
  refine ⟨rfl, ?_, ?_, ?_⟩
  · intro md hmd
    rcases List.mem_cons.mp hmd with h | h
    · cases h
    · rcases List.mem_cons.mp h with h' | h'
      · cases h'
        rfl
      · exact absurd h' (List.not_mem_nil _)
  · exact ⟨[SendMetadataAction.captureResponseMetadata (serverResponseKeys cfg)
        responseMetadata], [], rfl, List.mem_cons_self _ _⟩
  · rw [hvoid]
    rfl

/-- C7 witness: a concrete metadata carrier and an original sendMetadata
returning undefined; the wrap captures, delegates once with the same
carrier and returns the original's value. -/
theorem C7_witness :
    countSendMetadataCalls
      (wrappedSendMetadata emptyConfig (fun _ => JsValue.undefined)
        [("k", MetaVal.str "v")]).1 = 1
    ∧ (wrappedSendMetadata emptyConfig (fun _ => JsValue.undefined)
        [("k", MetaVal.str "v")]).2 =
        (fun _ => JsValue.undefined) [("k", MetaVal.str "v")] :=
  ⟨(C7_sendMetadata_wrap emptyConfig (fun _ => JsValue.undefined)
      [("k", MetaVal.str "v")] rfl).1,
   (C7_sendMetadata_wrap emptyConfig (fun _ => JsValue.undefined)
      [("k", MetaVal.str "v")] rfl).2.2.2⟩

/-- C8: for every RPC path of the form /service/method (the method part
containing no further slash, the service part free to contain dots), the
extractor splits on the last slash: the service is everything before it
with the leading slash stripped, the method is the remainder; an empty or
undefined input yields undefined for both fields, and extraction is a
total function, so no failure occurs. -/
theorem C8_extract_method_and_service
    (svc m : List Char) (hm : '/' ∉ m) :
    _extractMethodAndService (some (String.mk ('/' :: svc ++ '/' :: m))) =
      (some (String.mk svc), some (String.mk m))
    ∧ _extractMethodAndService (some "") = (none, none)
    ∧ _extractMethodAndService none = (none, none) := by
  refine ⟨?_, rfl, rfl⟩
  have hsplit : splitLastSlash ('/' :: svc ++ '/' :: m) =
      some ('/' :: svc, m) := splitLastSlash_append ('/' :: svc) hm
  rw [List.cons_append] at hsplit
  simp [_extractMethodAndService, hsplit]

/-- C8 witness: the specification example path /pkg.Sub.Service/Method
yields the service pkg.Sub.Service with its dots preserved and the method
Method; empty and undefined inputs yield undefined fields. -/
theorem C8_witness :
    _extractMethodAndService
        (some (String.mk ('/' :: "pkg.Sub.Service".toList ++ '/' ::
          "Method".toList))) =
      (some "pkg.Sub.Service", some "Method")
    ∧ _extractMethodAndService (some "") = (none, none)
    ∧ _extractMethodAndService none = (none, none) :=
  C8_extract_method_and_service "pkg.Sub.Service".toList "Method".toList
    (by decide)

/-- A concrete carrier for the capture example of the specification. -/
def demoCarrier : Metadata := [("a", MetaVal.str "1"), ("b", MetaVal.str "2")]

/-- C9: the capture function performs only attribute-setting actions —
it never starts or ends a span; for each configured key found in the
carrier by case-insensitive lookup, the attribute named
rpc.direction.metadata.key (key lower-cased) holds exactly the carrier's
value; a configured key absent from the carrier yields no attribute under
its name; and no attribute appears under any name that does not belong to
a configured key. -/
theorem C9_metadata_capture
    (direction : String) (keys : List String) (carrier : Metadata) :
    (∀ a ∈ metadataCapture direction keys carrier,
       a ≠ CaptureAction.startSpan ∧ a ≠ CaptureAction.endSpan)
    ∧ (∀ k ∈ keys, ∀ v, lookupCI k carrier = some v →
        finalAttr (metadataCapture direction keys carrier)
          (metadataAttrName direction k) = some v)
    ∧ (∀ k ∈ keys, lookupCI k carrier = none →
        finalAttr (metadataCapture direction keys carrier)
          (metadataAttrName direction k) = none)
    ∧ (∀ name, (∀ k ∈ keys, name ≠ metadataAttrName direction k) →
        finalAttr (metadataCapture direction keys carrier) name = none) := by
  refine ⟨?_, ?_, ?_, ?_⟩
  · intro a ha
    rcases mem_metadataCapture.mp ha with ⟨k, _, v, _, rfl⟩
    exact ⟨by simp, by simp⟩
  · intro k hk v hv
    apply finalAttr_eq_some_of (mem_metadataCapture.mpr ⟨k, hk, v, hv, rfl⟩)
    intro w hw
    rcases mem_metadataCapture.mp hw with ⟨k', hk', v', hv', heq⟩
    injection heq with h1 h2
    have hll := metadataAttrName_inj direction k' k h1
    rw [lookupCI_congr carrier hll, hv'] at hv
    rw [h2]
    exact Option.some.inj hv
  · intro k hk hnone
    apply finalAttr_eq_none
    intro v hv
    rcases mem_metadataCapture.mp hv with ⟨k', hk', v', hv', heq⟩
    injection heq with h1 h2
    have hll := metadataAttrName_inj direction k' k h1
    rw [lookupCI_congr carrier hll, hv'] at hnone
    exact Option.noConfusion hnone
  · intro name hname
    apply finalAttr_eq_none
    intro v hv
    rcases mem_metadataCapture.mp hv with ⟨k', hk', _, _, heq⟩
    injection heq with h1 _
    exact hname k' hk' h1

/-- C9 witness: the specification example — carrier holding a and b,
configured keys a and c: exactly the attribute for a is set with the
carrier's value, none for c, and none for the unconfigured carrier key
b. -/
theorem C9_witness :
    finalAttr (metadataCapture "request" ["a", "c"] demoCarrier)
      (metadataAttrName "request" "a") = some (MetaVal.str "1")
    ∧ finalAttr (metadataCapture "request" ["a", "c"] demoCarrier)
      (metadataAttrName "request" "c") = none
    ∧ finalAttr (metadataCapture "request" ["a", "c"] demoCarrier)
      "rpc.request.metadata.b" = none :=
  ⟨(C9_metadata_capture "request" ["a", "c"] demoCarrier).2.1 "a"
      (by decide) (MetaVal.str "1") (by decide),
   (C9_metadata_capture "request" ["a", "c"] demoCarrier).2.2.1 "c"
      (by decide) (by decide),
   (C9_metadata_capture "request" ["a", "c"] demoCarrier).2.2.2
      "rpc.request.metadata.b" (by decide)⟩

/-- C10: the set of traced client methods is fixed when the patched
client constructor runs — the ignore list is consulted there, inside
_getMethodsToWrap, under the configuration current at generation time —
and invoking a method under any later configuration creates a span
exactly when the method was in that generation-time list; the wrapped
method clientMethodTrace performs no ignore-list check, so its trace is
unchanged under any later ignoreGrpcMethods setting. -/
theorem C10_wrap_set_fixed_at_generation
    (cfgGen cfgNew : GrpcInstrumentationConfig)
    (protoHasOwnProperty : String → Bool) (methods : List MethodDefinition)
    (nm : String) (path : Option String) (args : List Nat) (target : String)
    (ign : Option (List IgnoreMatcher)) :
    (patchedMakeClientConstructor cfgGen protoHasOwnProperty
        methods).wrappedMethods
      = _getMethodsToWrap cfgGen protoHasOwnProperty methods
    ∧ countClientStartSpans
        (invokeClientMethod
          (patchedMakeClientConstructor cfgGen protoHasOwnProperty methods)
          cfgNew nm path args target)
      = (if nm ∈ _getMethodsToWrap cfgGen protoHasOwnProperty methods
         then 1 else 0)
    ∧ clientMethodTrace { cfgNew with ignoreGrpcMethods := ign }
        path args target
      = clientMethodTrace cfgNew path args target := by
  refine ⟨rfl, ?_, rfl⟩
  by_cases h : nm ∈ _getMethodsToWrap cfgGen protoHasOwnProperty methods
  · rw [if_pos h]
    simp only [invokeClientMethod, patchedMakeClientConstructor, if_pos h]
    exact countClientStartSpans_clientMethodTrace cfgNew path args target
  · rw [if_neg h]
    simp only [invokeClientMethod, patchedMakeClientConstructor, if_neg h]
    rfl
